import Mathlib

/-!
Shallow embedding of the `gosalla` Go SDK (Salla e-commerce API client):
webhook signature verification (`webhook.go`), OAuth token management
(`auth.go`, the client file), webhook parsing/dispatch (`webhook.go`) and
pagination helpers (`pagination.go`).

Conventions of the embedding:
- Go byte slices are `List Nat` with every element `< 256`; `[]byte(s)` for a
  Go string `s` is the UTF-8 encoding, embedded by `strBytes`.
- Machine words inside SHA-256 are `Nat` reduced `% 2^32` at each operation.
- `time.Time` instants are `Int` (Unix nanoseconds); `time.Duration` values
  are likewise nanosecond counts, so `5 * time.Minute` is `300000000000`.
- Fallible Go functions return `Option`/`Except`.
-/

namespace GoSalla

/-! ## Bytes, UTF-8 and hex encoding -/

/-- UTF-8 encoding of one character (standard 1–4 byte forms), as Go's
`[]byte(string)` conversion produces. -/
def utf8Bytes (c : Char) : List Nat :=
  let n := c.toNat
  if n < 128 then [n]
  else if n < 2048 then [192 + n / 64, 128 + n % 64]
  else if n < 65536 then [224 + n / 4096, 128 + n / 64 % 64, 128 + n % 64]
  else [240 + n / 262144, 128 + n / 4096 % 64, 128 + n / 64 % 64, 128 + n % 64]

/-- Go's `[]byte(s)`: the UTF-8 bytes of a string. -/
def strBytes (s : String) : List Nat :=
  s.data.flatMap utf8Bytes

/-- One lowercase hex digit, as `encoding/hex` uses. -/
def hexDigit (n : Nat) : Char :=
  if n < 10 then Char.ofNat (48 + n) else Char.ofNat (87 + n)

/-- Go's `hex.EncodeToString`: lowercase hex of a byte slice. -/
def hexEncodeToString (bs : List Nat) : String :=
  String.mk (bs.flatMap fun b => [hexDigit (b / 16 % 16), hexDigit (b % 16)])

/-! ## SHA-256 (FIPS 180-4), as used via `crypto/sha256` -/

/-- Addition modulo 2^32. -/
def add32 (a b : Nat) : Nat := (a + b) % 4294967296

/-- Right rotation of a 32-bit word by `n` places. -/
def rotr32 (n x : Nat) : Nat := x / 2 ^ n + x % 2 ^ n * 2 ^ (32 - n)

/-- Logical right shift of a 32-bit word. -/
def shr32 (n x : Nat) : Nat := x / 2 ^ n

/-- Bitwise complement of a 32-bit word. -/
def not32 (x : Nat) : Nat := 4294967295 - x

/-- SHA-256 choice function. -/
def shaCh (x y z : Nat) : Nat := (x &&& y) ^^^ (not32 x &&& z)

/-- SHA-256 majority function. -/
def shaMaj (x y z : Nat) : Nat := (x &&& y) ^^^ (x &&& z) ^^^ (y &&& z)

/-- SHA-256 Σ0. -/
def bigSigma0 (x : Nat) : Nat := rotr32 2 x ^^^ rotr32 13 x ^^^ rotr32 22 x

/-- SHA-256 Σ1. -/
def bigSigma1 (x : Nat) : Nat := rotr32 6 x ^^^ rotr32 11 x ^^^ rotr32 25 x

/-- SHA-256 σ0. -/
def smallSigma0 (x : Nat) : Nat := rotr32 7 x ^^^ rotr32 18 x ^^^ shr32 3 x

/-- SHA-256 σ1. -/
def smallSigma1 (x : Nat) : Nat := rotr32 17 x ^^^ rotr32 19 x ^^^ shr32 10 x

/-- SHA-256 round constants. -/
def shaK : List Nat :=
  [1116352408, 1899447441, 3049323471, 3921009573, 961987163,
   1508970993, 2453635748, 2870763221, 3624381080, 310598401,
   607225278, 1426881987, 1925078388, 2162078206, 2614888103,
   3248222580, 3835390401, 4022224774, 264347078, 604807628,
   770255983, 1249150122, 1555081692, 1996064986, 2554220882,
   2821834349, 2952996808, 3210313671, 3336571891, 3584528711,
   113926993, 338241895, 666307205, 773529912, 1294757372,
   1396182291, 1695183700, 1986661051, 2177026350, 2456956037,
   2730485921, 2820302411, 3259730800, 3345764771, 3516065817,
   3600352804, 4094571909, 275423344, 430227734, 506948616,
   659060556, 883997877, 958139571, 1322822218, 1537002063,
   1747873779, 1955562222, 2024104815, 2227730452, 2361852424,
   2428436474, 2756734187, 3204031479, 3329325298]

/-- SHA-256 initial hash value. -/
def shaH0 : List Nat :=
  [1779033703, 3144134277, 1013904242, 2773480762,
   1359893119, 2600822924, 528734635, 1541459225]

/-- Big-endian byte rendering of `n` into exactly `k` bytes. -/
def beBytes : Nat → Nat → List Nat
  | 0, _ => []
  | k + 1, n => beBytes k (n / 256) ++ [n % 256]

/-- SHA-256 padding: append `0x80`, zeros, and the 64-bit big-endian bit
length, reaching a multiple of 64 bytes. -/
def shaPad (msg : List Nat) : List Nat :=
  msg ++ 128 :: List.replicate ((119 - msg.length % 64) % 64) 0
      ++ beBytes 8 (8 * msg.length)

/-- Group four bytes (big-endian) into one 32-bit word. -/
def bytesToWords : List Nat → List Nat
  | b0 :: b1 :: b2 :: b3 :: rest =>
      (b0 * 16777216 + b1 * 65536 + b2 * 256 + b3) :: bytesToWords rest
  | _ => []

/-- Split a byte list into 64-byte blocks (fuelled structural recursion so
that the definition reduces; the fuel given by `chunks64` always suffices
since each round removes at least one byte). -/
def chunks64Go : Nat → List Nat → List (List Nat)
  | 0, _ => []
  | fuel + 1, l => if l.isEmpty then [] else l.take 64 :: chunks64Go fuel (l.drop 64)

/-- Split a byte list into 64-byte blocks. -/
def chunks64 (l : List Nat) : List (List Nat) :=
  chunks64Go l.length l

/-- One message-schedule extension step: append word `t` computed from words
`t-2`, `t-7`, `t-15`, `t-16`. -/
def schedStep (w : List Nat) : List Nat :=
  w ++ [add32 (add32 (smallSigma1 (w.getD (w.length - 2) 0))
                     (w.getD (w.length - 7) 0))
              (add32 (smallSigma0 (w.getD (w.length - 15) 0))
                     (w.getD (w.length - 16) 0))]

/-- Extend 16 schedule words to 64. -/
def extendSched (w : List Nat) : List Nat := schedStep^[48] w

/-- One SHA-256 round on the working variables `[a,b,c,d,e,f,g,h]`. -/
def shaRound (st : List Nat) (wi ki : Nat) : List Nat :=
  let a := st.getD 0 0
  let b := st.getD 1 0
  let c := st.getD 2 0
  let d := st.getD 3 0
  let e := st.getD 4 0
  let f := st.getD 5 0
  let g := st.getD 6 0
  let h := st.getD 7 0
  let t1 := add32 (add32 (add32 h (bigSigma1 e)) (add32 (shaCh e f g) ki)) wi
  let t2 := add32 (bigSigma0 a) (shaMaj a b c)
  [add32 t1 t2, a, b, c, add32 d t1, e, f, g]

/-- SHA-256 compression of one 16-word block into the chaining value. -/
def shaCompress (h : List Nat) (block : List Nat) : List Nat :=
  let w := extendSched block
  let fin := (w.zip shaK).foldl (fun st p => shaRound st p.1 p.2) h
  List.zipWith add32 h fin

/-- SHA-256 of a byte message, producing the 32 digest bytes. -/
def sha256 (msg : List Nat) : List Nat :=
  (((chunks64 (shaPad msg)).map bytesToWords).foldl shaCompress shaH0).flatMap
    (beBytes 4)

/-! ## HMAC-SHA256 (`crypto/hmac`) -/

/-- HMAC-SHA256 with block size 64: keys longer than a block are hashed,
then zero-padded; inner pad `0x36`, outer pad `0x5c`. -/
def hmacSha256 (key msg : List Nat) : List Nat :=
  let k0 := if 64 < key.length then sha256 key else key
  let kp := k0 ++ List.replicate (64 - k0.length) 0
  sha256 (kp.map (Nat.xor 92) ++ sha256 (kp.map (Nat.xor 54) ++ msg))

/-! ## `VerifyWebhookSignature` (`webhook.go` lines 90–96) -/

/-- Embedding of `VerifyWebhookSignature(secret, payload, signature)`:
computes the hex HMAC-SHA256 digest of the payload under the secret and
compares it to the supplied signature. `hmac.Equal` is constant-time byte
equality, which on the UTF-8 encodings coincides with string equality. -/
def VerifyWebhookSignature (secret : String) (payload : List Nat)
    (signature : String) : Bool :=
  signature == hexEncodeToString (hmacSha256 (strBytes secret) payload)

/-! ## JSON values

Go's `encoding/json` generic value space (`interface\x7b\x7d`). Numbers are
modelled as integers: every payload in the claims' scope is integral, and
fractional values decode into none of the integer struct fields anyway. -/

inductive Json where
  | null : Json
  | jbool : Bool → Json
  | num : Int → Json
  | str : String → Json
  | arr : List Json → Json
  | obj : List (String × Json) → Json

/-! ## OAuth token (`auth.go`) -/

/-- Embedding of the `Token` struct: access token, refresh token, token type
and absolute expiry instant (Unix nanoseconds). -/
structure Token where
  accessToken : String
  refreshToken : String
  tokenType : String
  expiry : Int
deriving DecidableEq

/-- Embedding of `Token.Valid` (`auth.go` lines 44–47):
`t.AccessToken != "" && time.Now().Before(t.Expiry)`, with the call instant
passed explicitly as `now`. -/
def Token.Valid (t : Token) (now : Int) : Bool :=
  t.accessToken != "" && decide (now < t.expiry)

/-! ## Client token management (the client file: `NewClient`, `GetToken`,
`SetToken`, `RefreshTokenIfNeeded`, `newRequest`, `do`) -/

/-- Constant from the client file. -/
def DefaultBaseURL : String := "https://api.salla.dev/admin/v2"

/-- Constant from the client file. -/
def DefaultUserAgent : String := "gosalla/1.0"

/-- The duration `5 * time.Minute` in nanoseconds. -/
def fiveMinutes : Int := 300000000000

/-- The freshness check of `RefreshTokenIfNeeded`:
`c.token != nil && time.Now().Add(5*time.Minute).Before(c.token.Expiry)`. -/
def tokenFresh (now : Int) : Option Token → Bool
  | none => false
  | some t => decide (now + fiveMinutes < t.expiry)

deriving instance DecidableEq for Except

/-- Result of one `RefreshTokenIfNeeded` call: the returned error value, the
token stored afterwards, and whether `oauthConfig.RefreshToken` was
invoked. -/
structure RefreshResult where
  res : Except String Unit
  token : Option Token
  invoked : Bool
deriving DecidableEq

/-- Embedding of `Client.RefreshTokenIfNeeded`. The network call
`c.oauthConfig.RefreshToken(...)` is external I/O, so its outcome is the
explicit `oracle` argument; the mutex acquisition makes the body atomic and
is modelled separately (see the interleaving system below). -/
def RefreshTokenIfNeeded (now : Int) (oracle : Except String Token)
    (tok : Option Token) : RefreshResult :=
  if tokenFresh now tok then ⟨.ok (), tok, false⟩
  else
    match tok with
    | none => ⟨.error "no refresh token available", tok, false⟩
    | some t =>
      if t.refreshToken = "" then ⟨.error "no refresh token available", tok, false⟩
      else
        match oracle with
        | .error e => ⟨.error ("failed to refresh token: " ++ e), tok, true⟩
        | .ok t' => ⟨.ok (), some t', true⟩

/-- Embedding of an outbound `http.Request` as far as the client constructs
one: `authorization = none` models the `Authorization` header not being
set. -/
structure Request where
  method : String
  url : String
  body : Option Json
  contentType : String
  accept : String
  userAgent : String
  authorization : Option String

/-- Embedding of `Client.newRequest`: builds the URL, marshals the body, sets
the fixed headers, and sets `Authorization: Bearer <token>` only when a token
with a non-empty access token is cached. -/
def newRequest (baseURL userAgent : String) (tok : Option Token)
    (method path : String) (body : Option Json) : Request :=
  { method := method
    url := baseURL ++ path
    body := body
    contentType := "application/json"
    accept := "application/json"
    userAgent := userAgent
    authorization :=
      match tok with
      | some t =>
        if t.accessToken ≠ "" then some ("Bearer " ++ t.accessToken) else none
      | none => none }

/-- Embedding of the authentication phase of `Client.do` (the part before the
request is handed to `httpClient.Do`): calls `RefreshTokenIfNeeded` and —
exactly as the source is written — rewrites the `Authorization` header only
in the branch where that call returned an error. Returns the token stored
afterwards and the request as handed to transport. -/
def doAuthPhase (now : Int) (oracle : Except String Token)
    (tok : Option Token) (req : Request) : Option Token × Request :=
  let r := RefreshTokenIfNeeded now oracle tok
  match r.res with
  | .error _ =>
    (r.token,
     match r.token with
     | some t =>
       if t.accessToken ≠ "" then
         { req with authorization := some ("Bearer " ++ t.accessToken) }
       else req
     | none => req)
  | .ok _ => (r.token, req)

/-! ## Pagination (`pagination.go`)

A nil `*Pagination` receiver is `none`; the methods begin with an explicit
nil check. Source field tags: `current_page`, `from`, `last_page`,
`per_page`, `to`, `total` (`from`/`to` are Lean keywords, hence `fromN` and
`toN`). -/

structure Pagination where
  currentPage : Int
  fromN : Int
  lastPage : Int
  perPage : Int
  toN : Int
  total : Int
deriving DecidableEq

/-- Embedding of `Pagination.HasNextPage`. -/
def Pagination.HasNextPage : Option Pagination → Bool
  | none => false
  | some p => decide (p.currentPage < p.lastPage)

/-- Embedding of `Pagination.NextPage`. The inner `none` case is unreachable
because a nil receiver already failed `HasNextPage`. -/
def Pagination.NextPage (p : Option Pagination) : Int :=
  if Pagination.HasNextPage p = false then 0
  else
    match p with
    | none => 0
    | some q => q.currentPage + 1

/-- Embedding of `Pagination.HasPreviousPage`. -/
def Pagination.HasPreviousPage : Option Pagination → Bool
  | none => false
  | some p => decide (1 < p.currentPage)

/-- Embedding of `Pagination.PreviousPage`. -/
def Pagination.PreviousPage (p : Option Pagination) : Int :=
  if Pagination.HasPreviousPage p = false then 0
  else
    match p with
    | none => 0
    | some q => q.currentPage - 1

/-! ## JSON text parsing

Embedding of the `encoding/json` text layer as far as the payloads in scope
need it: objects, arrays, strings with the common escapes, integral numbers,
booleans and null. Non-integral numbers and `\u` escapes are outside the
modelled fragment (no claim exercises them). Recursion is fuelled; the fuel
supplied by `parseJson` exceeds any need. -/

/-- Drop leading JSON whitespace. -/
def skipWs : List Char → List Char
  | [] => []
  | c :: rest =>
    if c = ' ' ∨ c = '\t' ∨ c = '\n' ∨ c = '\r' then skipWs rest else c :: rest

/-- Parse the remainder of a JSON string literal (the opening quote already
consumed), returning the decoded characters and the rest of the input. -/
def parseStrChars : List Char → Option (List Char × List Char)
  | [] => none
  | c :: rest =>
    if c = '"' then some ([], rest)
    else if c = '\\' then
      match rest with
      | [] => none
      | e :: rest2 =>
        let dec : Option Char :=
          if e = '"' then some '"'
          else if e = '\\' then some '\\'
          else if e = '/' then some '/'
          else if e = 'n' then some '\n'
          else if e = 't' then some '\t'
          else if e = 'r' then some '\r'
          else none
        match dec with
        | none => none
        | some ch =>
          match parseStrChars rest2 with
          | none => none
          | some (s, r) => some (ch :: s, r)
    else
      match parseStrChars rest with
      | none => none
      | some (s, r) => some (c :: s, r)

/-- Numeric value of a digit string. -/
def digitsVal (ds : List Char) : Nat :=
  ds.foldl (fun a c => a * 10 + (c.toNat - 48)) 0

/-- Parse an integral JSON number at the head of the input. -/
def parseNumberAt (cs : List Char) : Option (Json × List Char) :=
  let s : Bool × List Char :=
    match cs with
    | c :: rest => if c = '-' then (true, rest) else (false, cs)
    | [] => (false, cs)
  match s.2.span Char.isDigit with
  | (ds, rest) =>
    if ds.isEmpty then none
    else
      let v : Int := if s.1 then -(digitsVal ds : Int) else (digitsVal ds : Int)
      match rest with
      | c :: _ => if c = '.' ∨ c = 'e' ∨ c = 'E' then none else some (.num v, c :: rest.tail)
      | [] => some (.num v, [])

mutual

/-- Parse one JSON value. -/
def parseValue : Nat → List Char → Option (Json × List Char)
  | 0, _ => none
  | fuel + 1, cs =>
    match skipWs cs with
    | 'n' :: 'u' :: 'l' :: 'l' :: rest => some (.null, rest)
    | 't' :: 'r' :: 'u' :: 'e' :: rest => some (.jbool true, rest)
    | 'f' :: 'a' :: 'l' :: 's' :: 'e' :: rest => some (.jbool false, rest)
    | '"' :: rest =>
      match parseStrChars rest with
      | some (s, r) => some (.str (String.mk s), r)
      | none => none
    | '[' :: rest =>
      match skipWs rest with
      | ']' :: r2 => some (.arr [], r2)
      | cs2 =>
        match parseElems fuel cs2 with
        | some (es, r2) => some (.arr es, r2)
        | none => none
    | '{' :: rest =>
      match skipWs rest with
      | '}' :: r2 => some (.obj [], r2)
      | cs2 =>
        match parseMembers fuel cs2 with
        | some (ms, r2) => some (.obj ms, r2)
        | none => none
    | cs2 => parseNumberAt cs2

/-- Parse the comma-separated elements of a non-empty array, up to and
including the closing bracket. -/
def parseElems : Nat → List Char → Option (List Json × List Char)
  | 0, _ => none
  | fuel + 1, cs =>
    match parseValue fuel cs with
    | none => none
    | some (j, rest) =>
      match skipWs rest with
      | ',' :: r2 =>
        match parseElems fuel r2 with
        | some (es, r3) => some (j :: es, r3)
        | none => none
      | ']' :: r2 => some ([j], r2)
      | _ => none

/-- Parse the members of a non-empty object, up to and including the closing
brace. -/
def parseMembers : Nat → List Char → Option (List (String × Json) × List Char)
  | 0, _ => none
  | fuel + 1, cs =>
    match skipWs cs with
    | '"' :: rest =>
      match parseStrChars rest with
      | none => none
      | some (k, r1) =>
        match skipWs r1 with
        | ':' :: r2 =>
          match parseValue fuel r2 with
          | none => none
          | some (v, r3) =>
            match skipWs r3 with
            | ',' :: r4 =>
              match parseMembers fuel r4 with
              | some (ms, r5) => some ((String.mk k, v) :: ms, r5)
              | none => none
            | '}' :: r4 => some ([(String.mk k, v)], r4)
            | _ => none
        | _ => none
    | _ => none

end

/-- Parse a complete JSON document; trailing non-whitespace is an error, as
in `json.Unmarshal`. -/
def parseJson (s : String) : Option Json :=
  match parseValue (s.length + 2) s.data with
  | some (j, rest) => if (skipWs rest).isEmpty then some j else none
  | none => none

/-! ## Decoding JSON values into structs

`json.Unmarshal` semantics for the struct shapes in scope: unknown keys are
ignored, a later duplicate key overwrites an earlier one, a missing key
leaves the zero value, JSON `null` leaves scalar fields untouched but sets
maps and slices to nil, and a type mismatch is an error. Field-name matching
is embedded as the exact tag match (Go additionally falls back to a
case-insensitive match; no payload in scope relies on it). The RFC 3339
format check of `time.Time` values is not modelled: a `time.Time` field is
embedded as the raw string. Go `float64` fields are embedded as `Int`, as
every payload in scope is integral. -/

/-- Decode into a string field holding `cur`. -/
def decStrInto (cur : String) : Json → Option String
  | .str s => some s
  | .null => some cur
  | _ => none

/-- Decode into an integer (or `float64`) field holding `cur`. -/
def decIntInto (cur : Int) : Json → Option Int
  | .num n => some n
  | .null => some cur
  | _ => none

/-- Decode into a boolean field holding `cur`. -/
def decBoolInto (cur : Bool) : Json → Option Bool
  | .jbool b => some b
  | .null => some cur
  | _ => none

/-- Decode into a `map[string]interface\x7b\x7d` field; `null` sets the map
to nil. -/
def decMapInto (_cur : List (String × Json)) : Json → Option (List (String × Json))
  | .obj fs => some fs
  | .null => some []
  | _ => none

/-- Decode into a `time.Time` field holding `cur` (raw-string embedding);
`time.Time.UnmarshalJSON` ignores JSON `null`. -/
def decTimeInto (cur : String) : Json → Option String
  | .str s => some s
  | .null => some cur
  | _ => none

/-- Decode into a slice field: each element decodes into a fresh zero value;
`null` sets the slice to nil. -/
def decListInto {α : Type} (zero : α) (dec : α → Json → Option α) :
    Json → Option (List α)
  | .arr es => es.mapM (dec zero)
  | .null => some []
  | _ => none

/-- Decode into a `[]string` field. -/
def decStrListInto : Json → Option (List String)
  | .arr es => es.mapM (decStrInto "")
  | .null => some []
  | _ => none

/-! ## The generic webhook envelope (`webhook.go`) -/

/-- Embedding of the `WebhookEvent` struct (generic envelope). -/
structure WebhookEvent where
  event : String
  merchant : Int
  data : List (String × Json)
  createdAt : String

/-- Zero value of `WebhookEvent`. -/
def WebhookEvent.zero : WebhookEvent := ⟨"", 0, [], ""⟩

/-- Fold the members of a JSON object into a `WebhookEvent` by tag. -/
def decodeWebhookEventFields :
    List (String × Json) → WebhookEvent → Option WebhookEvent
  | [], ev => some ev
  | (k, v) :: rest, ev =>
    if k = "event" then
      match decStrInto ev.event v with
      | some x => decodeWebhookEventFields rest { ev with event := x }
      | none => none
    else if k = "merchant" then
      match decIntInto ev.merchant v with
      | some x => decodeWebhookEventFields rest { ev with merchant := x }
      | none => none
    else if k = "data" then
      match decMapInto ev.data v with
      | some x => decodeWebhookEventFields rest { ev with data := x }
      | none => none
    else if k = "created_at" then
      match decTimeInto ev.createdAt v with
      | some x => decodeWebhookEventFields rest { ev with createdAt := x }
      | none => none
    else decodeWebhookEventFields rest ev

/-- Decode a JSON value into a `WebhookEvent`; a non-object non-null
document is a type error, `null` leaves the zero value. -/
def decodeWebhookEvent : Json → Option WebhookEvent
  | .obj fs => decodeWebhookEventFields fs WebhookEvent.zero
  | .null => some WebhookEvent.zero
  | _ => none

/-- Embedding of `ParseWebhook` (`webhook.go` lines 99–105): parse the raw
body and decode the envelope; `none` stands for the wrapped
"failed to parse webhook" error. -/
def ParseWebhook (body : String) : Option WebhookEvent :=
  (parseJson body).bind decodeWebhookEvent

/-! ## Handler registry and HTTP dispatch (`webhook.go` lines 134–240) -/

/-- Embedding of the `WebhookHandler` function type; `some msg` is a non-nil
error return. -/
def WebhookHandler := WebhookEvent → Option String

/-- Embedding of the `WebhookHandlerFunc` struct: the shared secret and the
handler map. The Go map is an association list in registration order; lookup
takes the last binding, matching map overwrite semantics. -/
structure WebhookHandlerFunc where
  secret : String
  handlers : List (String × WebhookHandler)

/-- Embedding of `NewWebhookHandler`. -/
def NewWebhookHandler (secret : String) : WebhookHandlerFunc := ⟨secret, []⟩

/-- Embedding of `WebhookHandlerFunc.On`: register (or overwrite) the
handler for an event type. -/
def WebhookHandlerFunc.On (h : WebhookHandlerFunc) (eventType : String)
    (handler : WebhookHandler) : WebhookHandlerFunc :=
  ⟨h.secret, h.handlers ++ [(eventType, handler)]⟩

/-- Lookup in the handler map: the last binding for the tag wins. -/
def lookupHandler (hs : List (String × WebhookHandler)) (tag : String) :
    Option WebhookHandler :=
  hs.foldl (fun acc p => if p.1 = tag then some p.2 else acc) none

/-- Embedding of the inbound HTTP request as `ServeHTTP` reads it: method,
the `X-Signature` and `Authorization` headers (`""` models an absent header,
as `Header.Get` returns), and the raw body. -/
structure HttpRequest where
  method : String
  xSignature : String
  authHeader : String
  body : String

/-- Outcome of `ServeHTTP`: the written status code, and whether a
registered handler was invoked. -/
structure ServeResult where
  status : Nat
  handlerInvoked : Bool
deriving DecidableEq

/-- The signature `ServeHTTP` verifies: the `X-Signature` header, falling
back to `Authorization` when it is absent. -/
def effectiveSignature (r : HttpRequest) : String :=
  if r.xSignature ≠ "" then r.xSignature else r.authHeader

/-- The signature gate of `ServeHTTP`: verification runs only when a secret
is configured; with an empty secret every request passes. -/
def signatureAccepted (h : WebhookHandlerFunc) (r : HttpRequest) : Bool :=
  if h.secret ≠ "" then
    VerifyWebhookSignature h.secret (strBytes r.body) (effectiveSignature r)
  else true

/-- Embedding of `WebhookHandlerFunc.ServeHTTP`: reject non-POST with 405;
when a secret is configured take the signature from `X-Signature` (falling
back to `Authorization`) and reject a failed verification with 401; reject
an unparseable body with 400; with no handler registered for the tag answer
200 without invoking anything; otherwise invoke the handler, answering 500
on a handler error and 200 on success. Reading an in-memory body cannot
fail, so the read-failure 400 branch is unreachable in the embedding. -/
def WebhookHandlerFunc.ServeHTTP (h : WebhookHandlerFunc) (r : HttpRequest) :
    ServeResult :=
  if r.method ≠ "POST" then ⟨405, false⟩
  else
    if signatureAccepted h r = false then ⟨401, false⟩
    else
      match ParseWebhook r.body with
      | none => ⟨400, false⟩
      | some ev =>
        match lookupHandler h.handlers ev.event with
        | none => ⟨200, false⟩
        | some f =>
          match f ev with
          | some _ => ⟨500, true⟩
          | none => ⟨200, true⟩

/-! ## Domain structs (`products.go`, `customers.go`, the orders file)

Go field `Type` is embedded as `typeTag` (`type` is a Lean keyword). -/

/-- Embedding of `ProductImage`. -/
structure ProductImage where
  id : Int
  url : String
  alt : String
  position : Int
deriving DecidableEq

/-- Zero value of `ProductImage`. -/
def ProductImage.zero : ProductImage := ⟨0, "", "", 0⟩

/-- Embedding of `ProductOption`. -/
structure ProductOption where
  id : Int
  name : String
  typeTag : String
  values : List String
  required : Bool
deriving DecidableEq

/-- Zero value of `ProductOption`. -/
def ProductOption.zero : ProductOption := ⟨0, "", "", [], false⟩

/-- Embedding of `Product`. -/
structure Product where
  id : Int
  name : String
  description : String
  price : Int
  salePrice : Int
  sku : String
  quantity : Int
  status : String
  typeTag : String
  weight : Int
  categoryId : Int
  brandId : Int
  images : List ProductImage
  options : List ProductOption
  metadata : List (String × Json)
  createdAt : String
  updatedAt : String

/-- Zero value of `Product`. -/
def Product.zero : Product :=
  ⟨0, "", "", 0, 0, "", 0, "", "", 0, 0, 0, [], [], [], "", ""⟩

/-- Embedding of `CustomerAddress`. -/
structure CustomerAddress where
  id : Int
  typeTag : String
  firstName : String
  lastName : String
  address1 : String
  address2 : String
  city : String
  state : String
  postalCode : String
  country : String
  phone : String
  isDefault : Bool
deriving DecidableEq

/-- Zero value of `CustomerAddress`. -/
def CustomerAddress.zero : CustomerAddress :=
  ⟨0, "", "", "", "", "", "", "", "", "", "", false⟩

/-- Embedding of `Customer`. -/
structure Customer where
  id : Int
  firstName : String
  lastName : String
  email : String
  phone : String
  gender : String
  dateOfBirth : String
  status : String
  avatar : String
  addresses : List CustomerAddress
  metadata : List (String × Json)
  createdAt : String
  updatedAt : String

/-- Zero value of `Customer`: what `var customer Customer` declares. -/
def Customer.zero : Customer :=
  ⟨0, "", "", "", "", "", "", "", "", [], [], "", ""⟩

/-- Embedding of `OrderAmount`. -/
structure OrderAmount where
  total : Int
  subtotal : Int
  tax : Int
  shipping : Int
  discount : Int
  currencyCode : String
deriving DecidableEq

/-- Zero value of `OrderAmount`. -/
def OrderAmount.zero : OrderAmount := ⟨0, 0, 0, 0, 0, ""⟩

/-- Embedding of `OrderCustomer`. -/
structure OrderCustomer where
  id : Int
  name : String
  email : String
  phone : String
deriving DecidableEq

/-- Zero value of `OrderCustomer`. -/
def OrderCustomer.zero : OrderCustomer := ⟨0, "", "", ""⟩

/-- Embedding of `Address`. -/
structure Address where
  firstName : String
  lastName : String
  address1 : String
  address2 : String
  city : String
  state : String
  postalCode : String
  country : String
  phone : String
deriving DecidableEq

/-- Zero value of `Address`. -/
def Address.zero : Address := ⟨"", "", "", "", "", "", "", "", ""⟩

/-- Embedding of `OrderItem`. -/
structure OrderItem where
  id : Int
  productId : Int
  name : String
  sku : String
  quantity : Int
  price : Int
  total : Int
  options : List (String × Json)

/-- Zero value of `OrderItem`. -/
def OrderItem.zero : OrderItem := ⟨0, 0, "", "", 0, 0, 0, []⟩

/-- Embedding of `OrderPayment`. -/
structure OrderPayment where
  method : String
  gateway : String
  transaction : String
  paidAt : String
deriving DecidableEq

/-- Zero value of `OrderPayment`. -/
def OrderPayment.zero : OrderPayment := ⟨"", "", "", ""⟩

/-- Embedding of `OrderShipping`. -/
structure OrderShipping where
  method : String
  trackingNum : String
  shippedAt : String
deriving DecidableEq

/-- Zero value of `OrderShipping`. -/
def OrderShipping.zero : OrderShipping := ⟨"", "", ""⟩

/-- Embedding of `Order`. -/
structure Order where
  id : Int
  referenceId : String
  status : String
  paymentStatus : String
  amount : OrderAmount
  customer : OrderCustomer
  shippingAddress : Address
  billingAddress : Address
  items : List OrderItem
  payment : OrderPayment
  shipping : OrderShipping
  notes : String
  metadata : List (String × Json)
  createdAt : String
  updatedAt : String

/-- Zero value of `Order`. -/
def Order.zero : Order :=
  ⟨0, "", "", "", OrderAmount.zero, OrderCustomer.zero, Address.zero,
   Address.zero, [], OrderPayment.zero, OrderShipping.zero, "", [], "", ""⟩

/-! ## Struct decoders (`json.Unmarshal` into the domain structs) -/

/-- Fold object members into a `ProductImage`. -/
def decodeProductImageFields :
    List (String × Json) → ProductImage → Option ProductImage
  | [], x => some x
  | (k, v) :: rest, x =>
    if k = "id" then
      match decIntInto x.id v with
      | some y => decodeProductImageFields rest { x with id := y }
      | none => none
    else if k = "url" then
      match decStrInto x.url v with
      | some y => decodeProductImageFields rest { x with url := y }
      | none => none
    else if k = "alt" then
      match decStrInto x.alt v with
      | some y => decodeProductImageFields rest { x with alt := y }
      | none => none
    else if k = "position" then
      match decIntInto x.position v with
      | some y => decodeProductImageFields rest { x with position := y }
      | none => none
    else decodeProductImageFields rest x

/-- Decode into a `ProductImage` value. -/
def decProductImageInto (cur : ProductImage) : Json → Option ProductImage
  | .obj fs => decodeProductImageFields fs cur
  | .null => some cur
  | _ => none

/-- Fold object members into a `ProductOption`. -/
def decodeProductOptionFields :
    List (String × Json) → ProductOption → Option ProductOption
  | [], x => some x
  | (k, v) :: rest, x =>
    if k = "id" then
      match decIntInto x.id v with
      | some y => decodeProductOptionFields rest { x with id := y }
      | none => none
    else if k = "name" then
      match decStrInto x.name v with
      | some y => decodeProductOptionFields rest { x with name := y }
      | none => none
    else if k = "type" then
      match decStrInto x.typeTag v with
      | some y => decodeProductOptionFields rest { x with typeTag := y }
      | none => none
    else if k = "values" then
      match decStrListInto v with
      | some y => decodeProductOptionFields rest { x with values := y }
      | none => none
    else if k = "required" then
      match decBoolInto x.required v with
      | some y => decodeProductOptionFields rest { x with required := y }
      | none => none
    else decodeProductOptionFields rest x

/-- Decode into a `ProductOption` value. -/
def decProductOptionInto (cur : ProductOption) : Json → Option ProductOption
  | .obj fs => decodeProductOptionFields fs cur
  | .null => some cur
  | _ => none

/-- Fold object members into a `Product`. -/
def decodeProductFields : List (String × Json) → Product → Option Product
  | [], x => some x
  | (k, v) :: rest, x =>
    if k = "id" then
      match decIntInto x.id v with
      | some y => decodeProductFields rest { x with id := y }
      | none => none
    else if k = "name" then
      match decStrInto x.name v with
      | some y => decodeProductFields rest { x with name := y }
      | none => none
    else if k = "description" then
      match decStrInto x.description v with
      | some y => decodeProductFields rest { x with description := y }
      | none => none
    else if k = "price" then
      match decIntInto x.price v with
      | some y => decodeProductFields rest { x with price := y }
      | none => none
    else if k = "sale_price" then
      match decIntInto x.salePrice v with
      | some y => decodeProductFields rest { x with salePrice := y }
      | none => none
    else if k = "sku" then
      match decStrInto x.sku v with
      | some y => decodeProductFields rest { x with sku := y }
      | none => none
    else if k = "quantity" then
      match decIntInto x.quantity v with
      | some y => decodeProductFields rest { x with quantity := y }
      | none => none
    else if k = "status" then
      match decStrInto x.status v with
      | some y => decodeProductFields rest { x with status := y }
      | none => none
    else if k = "type" then
      match decStrInto x.typeTag v with
      | some y => decodeProductFields rest { x with typeTag := y }
      | none => none
    else if k = "weight" then
      match decIntInto x.weight v with
      | some y => decodeProductFields rest { x with weight := y }
      | none => none
    else if k = "category_id" then
      match decIntInto x.categoryId v with
      | some y => decodeProductFields rest { x with categoryId := y }
      | none => none
    else if k = "brand_id" then
      match decIntInto x.brandId v with
      | some y => decodeProductFields rest { x with brandId := y }
      | none => none
    else if k = "images" then
      match decListInto ProductImage.zero decProductImageInto v with
      | some y => decodeProductFields rest { x with images := y }
      | none => none
    else if k = "options" then
      match decListInto ProductOption.zero decProductOptionInto v with
      | some y => decodeProductFields rest { x with options := y }
      | none => none
    else if k = "metadata" then
      match decMapInto x.metadata v with
      | some y => decodeProductFields rest { x with metadata := y }
      | none => none
    else if k = "created_at" then
      match decTimeInto x.createdAt v with
      | some y => decodeProductFields rest { x with createdAt := y }
      | none => none
    else if k = "updated_at" then
      match decTimeInto x.updatedAt v with
      | some y => decodeProductFields rest { x with updatedAt := y }
      | none => none
    else decodeProductFields rest x

/-- Decode a JSON value into a `Product`. -/
def decodeProduct : Json → Option Product
  | .obj fs => decodeProductFields fs Product.zero
  | .null => some Product.zero
  | _ => none

/-- Fold object members into a `CustomerAddress`. -/
def decodeCustomerAddressFields :
    List (String × Json) → CustomerAddress → Option CustomerAddress
  | [], x => some x
  | (k, v) :: rest, x =>
    if k = "id" then
      match decIntInto x.id v with
      | some y => decodeCustomerAddressFields rest { x with id := y }
      | none => none
    else if k = "type" then
      match decStrInto x.typeTag v with
      | some y => decodeCustomerAddressFields rest { x with typeTag := y }
      | none => none
    else if k = "first_name" then
      match decStrInto x.firstName v with
      | some y => decodeCustomerAddressFields rest { x with firstName := y }
      | none => none
    else if k = "last_name" then
      match decStrInto x.lastName v with
      | some y => decodeCustomerAddressFields rest { x with lastName := y }
      | none => none
    else if k = "address_1" then
      match decStrInto x.address1 v with
      | some y => decodeCustomerAddressFields rest { x with address1 := y }
      | none => none
    else if k = "address_2" then
      match decStrInto x.address2 v with
      | some y => decodeCustomerAddressFields rest { x with address2 := y }
      | none => none
    else if k = "city" then
      match decStrInto x.city v with
      | some y => decodeCustomerAddressFields rest { x with city := y }
      | none => none
    else if k = "state" then
      match decStrInto x.state v with
      | some y => decodeCustomerAddressFields rest { x with state := y }
      | none => none
    else if k = "postal_code" then
      match decStrInto x.postalCode v with
      | some y => decodeCustomerAddressFields rest { x with postalCode := y }
      | none => none
    else if k = "country" then
      match decStrInto x.country v with
      | some y => decodeCustomerAddressFields rest { x with country := y }
      | none => none
    else if k = "phone" then
      match decStrInto x.phone v with
      | some y => decodeCustomerAddressFields rest { x with phone := y }
      | none => none
    else if k = "is_default" then
      match decBoolInto x.isDefault v with
      | some y => decodeCustomerAddressFields rest { x with isDefault := y }
      | none => none
    else decodeCustomerAddressFields rest x

/-- Decode into a `CustomerAddress` value. -/
def decCustomerAddressInto (cur : CustomerAddress) : Json → Option CustomerAddress
  | .obj fs => decodeCustomerAddressFields fs cur
  | .null => some cur
  | _ => none

/-- Fold object members into a `Customer`. -/
def decodeCustomerFields : List (String × Json) → Customer → Option Customer
  | [], x => some x
  | (k, v) :: rest, x =>
    if k = "id" then
      match decIntInto x.id v with
      | some y => decodeCustomerFields rest { x with id := y }
      | none => none
    else if k = "first_name" then
      match decStrInto x.firstName v with
      | some y => decodeCustomerFields rest { x with firstName := y }
      | none => none
    else if k = "last_name" then
      match decStrInto x.lastName v with
      | some y => decodeCustomerFields rest { x with lastName := y }
      | none => none
    else if k = "email" then
      match decStrInto x.email v with
      | some y => decodeCustomerFields rest { x with email := y }
      | none => none
    else if k = "phone" then
      match decStrInto x.phone v with
      | some y => decodeCustomerFields rest { x with phone := y }
      | none => none
    else if k = "gender" then
      match decStrInto x.gender v with
      | some y => decodeCustomerFields rest { x with gender := y }
      | none => none
    else if k = "date_of_birth" then
      match decStrInto x.dateOfBirth v with
      | some y => decodeCustomerFields rest { x with dateOfBirth := y }
      | none => none
    else if k = "status" then
      match decStrInto x.status v with
      | some y => decodeCustomerFields rest { x with status := y }
      | none => none
    else if k = "avatar" then
      match decStrInto x.avatar v with
      | some y => decodeCustomerFields rest { x with avatar := y }
      | none => none
    else if k = "addresses" then
      match decListInto CustomerAddress.zero decCustomerAddressInto v with
      | some y => decodeCustomerFields rest { x with addresses := y }
      | none => none
    else if k = "metadata" then
      match decMapInto x.metadata v with
      | some y => decodeCustomerFields rest { x with metadata := y }
      | none => none
    else if k = "created_at" then
      match decTimeInto x.createdAt v with
      | some y => decodeCustomerFields rest { x with createdAt := y }
      | none => none
    else if k = "updated_at" then
      match decTimeInto x.updatedAt v with
      | some y => decodeCustomerFields rest { x with updatedAt := y }
      | none => none
    else decodeCustomerFields rest x

/-- Decode a JSON value into a `Customer`. -/
def decodeCustomer : Json → Option Customer
  | .obj fs => decodeCustomerFields fs Customer.zero
  | .null => some Customer.zero
  | _ => none

/-- Fold object members into an `OrderAmount`. -/
def decodeOrderAmountFields :
    List (String × Json) → OrderAmount → Option OrderAmount
  | [], x => some x
  | (k, v) :: rest, x =>
    if k = "total" then
      match decIntInto x.total v with
      | some y => decodeOrderAmountFields rest { x with total := y }
      | none => none
    else if k = "subtotal" then
      match decIntInto x.subtotal v with
      | some y => decodeOrderAmountFields rest { x with subtotal := y }
      | none => none
    else if k = "tax" then
      match decIntInto x.tax v with
      | some y => decodeOrderAmountFields rest { x with tax := y }
      | none => none
    else if k = "shipping" then
      match decIntInto x.shipping v with
      | some y => decodeOrderAmountFields rest { x with shipping := y }
      | none => none
    else if k = "discount" then
      match decIntInto x.discount v with
      | some y => decodeOrderAmountFields rest { x with discount := y }
      | none => none
    else if k = "currency_code" then
      match decStrInto x.currencyCode v with
      | some y => decodeOrderAmountFields rest { x with currencyCode := y }
      | none => none
    else decodeOrderAmountFields rest x

/-- Decode into an `OrderAmount` value. -/
def decOrderAmountInto (cur : OrderAmount) : Json → Option OrderAmount
  | .obj fs => decodeOrderAmountFields fs cur
  | .null => some cur
  | _ => none

/-- Fold object members into an `OrderCustomer`. -/
def decodeOrderCustomerFields :
    List (String × Json) → OrderCustomer → Option OrderCustomer
  | [], x => some x
  | (k, v) :: rest, x =>
    if k = "id" then
      match decIntInto x.id v with
      | some y => decodeOrderCustomerFields rest { x with id := y }
      | none => none
    else if k = "name" then
      match decStrInto x.name v with
      | some y => decodeOrderCustomerFields rest { x with name := y }
      | none => none
    else if k = "email" then
      match decStrInto x.email v with
      | some y => decodeOrderCustomerFields rest { x with email := y }
      | none => none
    else if k = "phone" then
      match decStrInto x.phone v with
      | some y => decodeOrderCustomerFields rest { x with phone := y }
      | none => none
    else decodeOrderCustomerFields rest x

/-- Decode into an `OrderCustomer` value. -/
def decOrderCustomerInto (cur : OrderCustomer) : Json → Option OrderCustomer
  | .obj fs => decodeOrderCustomerFields fs cur
  | .null => some cur
  | _ => none

/-- Fold object members into an `Address`. -/
def decodeAddressFields : List (String × Json) → Address → Option Address
  | [], x => some x
  | (k, v) :: rest, x =>
    if k = "first_name" then
      match decStrInto x.firstName v with
      | some y => decodeAddressFields rest { x with firstName := y }
      | none => none
    else if k = "last_name" then
      match decStrInto x.lastName v with
      | some y => decodeAddressFields rest { x with lastName := y }
      | none => none
    else if k = "address_1" then
      match decStrInto x.address1 v with
      | some y => decodeAddressFields rest { x with address1 := y }
      | none => none
    else if k = "address_2" then
      match decStrInto x.address2 v with
      | some y => decodeAddressFields rest { x with address2 := y }
      | none => none
    else if k = "city" then
      match decStrInto x.city v with
      | some y => decodeAddressFields rest { x with city := y }
      | none => none
    else if k = "state" then
      match decStrInto x.state v with
      | some y => decodeAddressFields rest { x with state := y }
      | none => none
    else if k = "postal_code" then
      match decStrInto x.postalCode v with
      | some y => decodeAddressFields rest { x with postalCode := y }
      | none => none
    else if k = "country" then
      match decStrInto x.country v with
      | some y => decodeAddressFields rest { x with country := y }
      | none => none
    else if k = "phone" then
      match decStrInto x.phone v with
      | some y => decodeAddressFields rest { x with phone := y }
      | none => none
    else decodeAddressFields rest x

/-- Decode into an `Address` value. -/
def decAddressInto (cur : Address) : Json → Option Address
  | .obj fs => decodeAddressFields fs cur
  | .null => some cur
  | _ => none

/-- Fold object members into an `OrderItem`. -/
def decodeOrderItemFields : List (String × Json) → OrderItem → Option OrderItem
  | [], x => some x
  | (k, v) :: rest, x =>
    if k = "id" then
      match decIntInto x.id v with
      | some y => decodeOrderItemFields rest { x with id := y }
      | none => none
    else if k = "product_id" then
      match decIntInto x.productId v with
      | some y => decodeOrderItemFields rest { x with productId := y }
      | none => none
    else if k = "name" then
      match decStrInto x.name v with
      | some y => decodeOrderItemFields rest { x with name := y }
      | none => none
    else if k = "sku" then
      match decStrInto x.sku v with
      | some y => decodeOrderItemFields rest { x with sku := y }
      | none => none
    else if k = "quantity" then
      match decIntInto x.quantity v with
      | some y => decodeOrderItemFields rest { x with quantity := y }
      | none => none
    else if k = "price" then
      match decIntInto x.price v with
      | some y => decodeOrderItemFields rest { x with price := y }
      | none => none
    else if k = "total" then
      match decIntInto x.total v with
      | some y => decodeOrderItemFields rest { x with total := y }
      | none => none
    else if k = "options" then
      match decMapInto x.options v with
      | some y => decodeOrderItemFields rest { x with options := y }
      | none => none
    else decodeOrderItemFields rest x

/-- Decode into an `OrderItem` value. -/
def decOrderItemInto (cur : OrderItem) : Json → Option OrderItem
  | .obj fs => decodeOrderItemFields fs cur
  | .null => some cur
  | _ => none

/-- Fold object members into an `OrderPayment`. -/
def decodeOrderPaymentFields :
    List (String × Json) → OrderPayment → Option OrderPayment
  | [], x => some x
  | (k, v) :: rest, x =>
    if k = "method" then
      match decStrInto x.method v with
      | some y => decodeOrderPaymentFields rest { x with method := y }
      | none => none
    else if k = "gateway" then
      match decStrInto x.gateway v with
      | some y => decodeOrderPaymentFields rest { x with gateway := y }
      | none => none
    else if k = "transaction" then
      match decStrInto x.transaction v with
      | some y => decodeOrderPaymentFields rest { x with transaction := y }
      | none => none
    else if k = "paid_at" then
      match decTimeInto x.paidAt v with
      | some y => decodeOrderPaymentFields rest { x with paidAt := y }
      | none => none
    else decodeOrderPaymentFields rest x

/-- Decode into an `OrderPayment` value. -/
def decOrderPaymentInto (cur : OrderPayment) : Json → Option OrderPayment
  | .obj fs => decodeOrderPaymentFields fs cur
  | .null => some cur
  | _ => none

/-- Fold object members into an `OrderShipping`. -/
def decodeOrderShippingFields :
    List (String × Json) → OrderShipping → Option OrderShipping
  | [], x => some x
  | (k, v) :: rest, x =>
    if k = "method" then
      match decStrInto x.method v with
      | some y => decodeOrderShippingFields rest { x with method := y }
      | none => none
    else if k = "tracking_number" then
      match decStrInto x.trackingNum v with
      | some y => decodeOrderShippingFields rest { x with trackingNum := y }
      | none => none
    else if k = "shipped_at" then
      match decTimeInto x.shippedAt v with
      | some y => decodeOrderShippingFields rest { x with shippedAt := y }
      | none => none
    else decodeOrderShippingFields rest x

/-- Decode into an `OrderShipping` value. -/
def decOrderShippingInto (cur : OrderShipping) : Json → Option OrderShipping
  | .obj fs => decodeOrderShippingFields fs cur
  | .null => some cur
  | _ => none

/-- Fold object members into an `Order`. -/
def decodeOrderFields : List (String × Json) → Order → Option Order
  | [], x => some x
  | (k, v) :: rest, x =>
    if k = "id" then
      match decIntInto x.id v with
      | some y => decodeOrderFields rest { x with id := y }
      | none => none
    else if k = "reference_id" then
      match decStrInto x.referenceId v with
      | some y => decodeOrderFields rest { x with referenceId := y }
      | none => none
    else if k = "status" then
      match decStrInto x.status v with
      | some y => decodeOrderFields rest { x with status := y }
      | none => none
    else if k = "payment_status" then
      match decStrInto x.paymentStatus v with
      | some y => decodeOrderFields rest { x with paymentStatus := y }
      | none => none
    else if k = "amount" then
      match decOrderAmountInto x.amount v with
      | some y => decodeOrderFields rest { x with amount := y }
      | none => none
    else if k = "customer" then
      match decOrderCustomerInto x.customer v with
      | some y => decodeOrderFields rest { x with customer := y }
      | none => none
    else if k = "shipping_address" then
      match decAddressInto x.shippingAddress v with
      | some y => decodeOrderFields rest { x with shippingAddress := y }
      | none => none
    else if k = "billing_address" then
      match decAddressInto x.billingAddress v with
      | some y => decodeOrderFields rest { x with billingAddress := y }
      | none => none
    else if k = "items" then
      match decListInto OrderItem.zero decOrderItemInto v with
      | some y => decodeOrderFields rest { x with items := y }
      | none => none
    else if k = "payment" then
      match decOrderPaymentInto x.payment v with
      | some y => decodeOrderFields rest { x with payment := y }
      | none => none
    else if k = "shipping" then
      match decOrderShippingInto x.shipping v with
      | some y => decodeOrderFields rest { x with shipping := y }
      | none => none
    else if k = "notes" then
      match decStrInto x.notes v with
      | some y => decodeOrderFields rest { x with notes := y }
      | none => none
    else if k = "metadata" then
      match decMapInto x.metadata v with
      | some y => decodeOrderFields rest { x with metadata := y }
      | none => none
    else if k = "created_at" then
      match decTimeInto x.createdAt v with
      | some y => decodeOrderFields rest { x with createdAt := y }
      | none => none
    else if k = "updated_at" then
      match decTimeInto x.updatedAt v with
      | some y => decodeOrderFields rest { x with updatedAt := y }
      | none => none
    else decodeOrderFields rest x

/-- Decode a JSON value into an `Order`. -/
def decodeOrder : Json → Option Order
  | .obj fs => decodeOrderFields fs Order.zero
  | .null => some Order.zero
  | _ => none

/-! ## Typed webhook events and conversions (`webhook.go` lines 64–86 and
243–298)

Each conversion re-encodes `event.Data` with `json.Marshal` and decodes the
result. Marshalling a `map[string]interface\x7b\x7d` whose values came from
parsed JSON yields exactly that object again (Go sorts the keys, which the
tag-directed decoders ignore), so the embedding decodes `Json.obj ev.data`
directly. -/

/-- Embedding of `ProductWebhookEvent`. -/
structure ProductWebhookEvent where
  event : String
  merchant : Int
  data : Product
  createdAt : String

/-- Embedding of `OrderWebhookEvent`. -/
structure OrderWebhookEvent where
  event : String
  merchant : Int
  data : Order
  createdAt : String

/-- Embedding of `CustomerWebhookEvent`. -/
structure CustomerWebhookEvent where
  event : String
  merchant : Int
  data : Customer
  createdAt : String

/-- Embedding of `convertToProductEvent`. -/
def convertToProductEvent (ev : WebhookEvent) : Option ProductWebhookEvent :=
  match decodeProduct (Json.obj ev.data) with
  | some p => some ⟨ev.event, ev.merchant, p, ev.createdAt⟩
  | none => none

/-- Embedding of `convertToOrderEvent`. -/
def convertToOrderEvent (ev : WebhookEvent) : Option OrderWebhookEvent :=
  match decodeOrder (Json.obj ev.data) with
  | some o => some ⟨ev.event, ev.merchant, o, ev.createdAt⟩
  | none => none

/-- Embedding of `convertToCustomerEvent`, as the source is written: the
function declares `var customer Customer` but calls
`json.Unmarshal(data, &order)` — `order` is not in scope there, so the
package does not compile as written; under the only reading consistent with
the text the unmarshal targets an `Order` and the returned `Data` keeps
`customer`'s zero value. -/
def convertToCustomerEvent (ev : WebhookEvent) : Option CustomerWebhookEvent :=
  match decodeOrder (Json.obj ev.data) with
  | some _ => some ⟨ev.event, ev.merchant, Customer.zero, ev.createdAt⟩
  | none => none

/-! ## Interleaving model of concurrent `RefreshTokenIfNeeded` callers

`sync.Mutex` serialization is modelled operationally: `N` anonymous threads
each run the body of `RefreshTokenIfNeeded` once. A thread's program
counter: `ready` (about to call), `locked` (holds `tokenMu`, about to
evaluate the freshness check), `staleSeen` (holds `tokenMu`, the check said
a refresh is needed and a refresh token exists), `finished` (returned,
mutex released). Acquisition requires the lock to be free; the refresh
network call, the store of the new token and the release happen while the
lock is held. The refresh outcome is a fixed successful `newTok`, matching
the claim's scenario. -/

inductive ThreadPC where
  | ready : ThreadPC
  | locked : ThreadPC
  | staleSeen : ThreadPC
  | finished : ThreadPC
deriving DecidableEq

/-- Global state of the interleaving system: the mutex, the stored token,
the number of refresh calls issued so far, and the thread pool. -/
structure SysState where
  lock : Bool
  tok : Option Token
  count : Nat
  pcs : Multiset ThreadPC

/-- One interleaving step. The guards are exactly the branch conditions of
`RefreshTokenIfNeeded`; `tokenFresh` is the same check the sequential
embedding uses. -/
inductive RefreshStep (now : Int) (newTok : Token) : SysState → SysState → Prop
  | acquire (tok : Option Token) (count : Nat) (rest : Multiset ThreadPC) :
      RefreshStep now newTok
        ⟨false, tok, count, .ready ::ₘ rest⟩
        ⟨true, tok, count, .locked ::ₘ rest⟩
  | checkFresh (tok : Option Token) (count : Nat) (rest : Multiset ThreadPC)
      (hf : tokenFresh now tok = true) :
      RefreshStep now newTok
        ⟨true, tok, count, .locked ::ₘ rest⟩
        ⟨false, tok, count, .finished ::ₘ rest⟩
  | checkNoRefreshToken (tok : Option Token) (count : Nat)
      (rest : Multiset ThreadPC)
      (hf : tokenFresh now tok = false)
      (hrt : tok = none ∨ ∃ t, tok = some t ∧ t.refreshToken = "") :
      RefreshStep now newTok
        ⟨true, tok, count, .locked ::ₘ rest⟩
        ⟨false, tok, count, .finished ::ₘ rest⟩
  | checkStale (t : Token) (count : Nat) (rest : Multiset ThreadPC)
      (hf : tokenFresh now (some t) = false) (hrt : t.refreshToken ≠ "") :
      RefreshStep now newTok
        ⟨true, some t, count, .locked ::ₘ rest⟩
        ⟨true, some t, count, .staleSeen ::ₘ rest⟩
  | refresh (tok : Option Token) (count : Nat) (rest : Multiset ThreadPC) :
      RefreshStep now newTok
        ⟨true, tok, count, .staleSeen ::ₘ rest⟩
        ⟨false, some newTok, count + 1, .finished ::ₘ rest⟩

/-- Initial state: lock free, stored token `tok0`, no refresh issued, `n`
threads about to call. -/
def initState (tok0 : Option Token) (n : Nat) : SysState :=
  ⟨false, tok0, 0, Multiset.replicate n .ready⟩

/-- Number of threads inside the critical section. -/
def csCount (pcs : Multiset ThreadPC) : Nat :=
  Multiset.countP (fun pc => pc = .locked ∨ pc = .staleSeen) pcs

/-- Inductive invariant of the interleaving system for an initially stale,
refreshable token `t0` and a fresh refresh outcome `newTok`. -/
def refreshInv (t0 newTok : Token) (n : Nat) (s : SysState) : Prop :=
  Multiset.card s.pcs = n ∧
  (s.lock = false → csCount s.pcs = 0) ∧
  csCount s.pcs ≤ 1 ∧
  s.count ≤ 1 ∧
  (s.count = 0 → s.tok = some t0 ∧ ThreadPC.finished ∉ s.pcs) ∧
  (s.count = 1 → s.tok = some newTok ∧ ThreadPC.staleSeen ∉ s.pcs)

/-! ## Claims -/

/-- C4: `Token.Valid` returns true iff the access token is non-empty and the
call instant is strictly before the expiry; in particular an expiry in the
past makes it false, and a future expiry with a non-empty access token makes
it true. -/
theorem token_valid_iff (t : Token) (now : Int) :
    (Token.Valid t now = true ↔ t.accessToken ≠ "" ∧ now < t.expiry) ∧
    (t.expiry ≤ now → Token.Valid t now = false) ∧
    (now < t.expiry → t.accessToken ≠ "" → Token.Valid t now = true) := by
  refine ⟨?_, ?_, ?_⟩
  · simp [Token.Valid]
  · intro h
    simp [Token.Valid]
    intro _
    omega
  · intro h1 h2
    simp [Token.Valid, h2, h1]

/-- Witness for `token_valid_iff` at a concrete token and instant. -/
theorem token_valid_iff_witness :
    Token.Valid ⟨"acc", "ref", "bearer", 10⟩ 5 = true :=
  (token_valid_iff ⟨"acc", "ref", "bearer", 10⟩ 5).2.2 (by decide) (by decide)

/-- C5: `RefreshTokenIfNeeded` consults the refresh oracle exactly when the
stored token is missing, expired or within the five-minute margin and a
refresh token is available; with no refresh token it fails without a refresh
attempt; with a fresh stored token it succeeds without any call or state
change. The second conjunct restates the freshness check in the claim's
vocabulary: stale means missing, or expiry at most the margin away. -/
theorem refresh_if_needed_invocation_policy (now : Int)
    (oracle : Except String Token) (tok : Option Token) :
    ((RefreshTokenIfNeeded now oracle tok).invoked = true ↔
      tokenFresh now tok = false ∧ ∃ t, tok = some t ∧ t.refreshToken ≠ "") ∧
    (tokenFresh now tok = false ↔
      tok = none ∨ ∃ t, tok = some t ∧ t.expiry ≤ now + fiveMinutes) ∧
    (tokenFresh now tok = true →
      RefreshTokenIfNeeded now oracle tok = ⟨.ok (), tok, false⟩) ∧
    (tokenFresh now tok = false →
      (tok = none ∨ ∃ t, tok = some t ∧ t.refreshToken = "") →
      RefreshTokenIfNeeded now oracle tok =
        ⟨.error "no refresh token available", tok, false⟩) := by
  refine ⟨?_, ?_, ?_, ?_⟩
  · cases tok with
    | none => simp [RefreshTokenIfNeeded, tokenFresh]
    | some t =>
      cases oracle <;>
        · simp only [RefreshTokenIfNeeded]
          split_ifs <;> simp_all [tokenFresh]
  · cases tok with
    | none => simp [tokenFresh]
    | some t => simp [tokenFresh]
  · intro h
    simp [RefreshTokenIfNeeded, h]
  · intro h hrt
    cases tok with
    | none => simp [RefreshTokenIfNeeded, h]
    | some t =>
      obtain ⟨t', ht', hrt'⟩ := hrt.resolve_left (by simp)
      cases ht'
      simp [RefreshTokenIfNeeded, h, hrt']

/-- Witness for `refresh_if_needed_invocation_policy`: a token comfortably
outside the margin is returned untouched with no refresh call. -/
theorem refresh_if_needed_invocation_policy_witness :
    RefreshTokenIfNeeded 0 (.error "unreachable")
        (some ⟨"acc", "ref", "bearer", 1000000000000000⟩) =
      ⟨.ok (), some ⟨"acc", "ref", "bearer", 1000000000000000⟩, false⟩ :=
  (refresh_if_needed_invocation_policy 0 (.error "unreachable")
      (some ⟨"acc", "ref", "bearer", 1000000000000000⟩)).2.2.1 (by decide)

/-- C6: when the oracle was consulted, a failing refresh leaves the stored
token exactly as it was and propagates the wrapped error, and a successful
refresh replaces the stored token by the new token as a whole value. -/
theorem refresh_atomicity (now : Int) (tok : Option Token) (e : String)
    (t' : Token) :
    ((RefreshTokenIfNeeded now (.error e) tok).invoked = true →
      (RefreshTokenIfNeeded now (.error e) tok).token = tok ∧
      (RefreshTokenIfNeeded now (.error e) tok).res =
        .error ("failed to refresh token: " ++ e)) ∧
    ((RefreshTokenIfNeeded now (.ok t') tok).invoked = true →
      (RefreshTokenIfNeeded now (.ok t') tok).token = some t' ∧
      (RefreshTokenIfNeeded now (.ok t') tok).res = .ok ()) := by
  constructor <;>
    · intro h
      cases tok with
      | none =>
        simp only [RefreshTokenIfNeeded] at h
        split_ifs at h
      | some t =>
        simp only [RefreshTokenIfNeeded] at *
        split_ifs at h
        simp_all

/-- Witness for `refresh_atomicity`: a failing refresh of an expired token
retains it and surfaces the wrapped error. -/
theorem refresh_atomicity_witness :
    (RefreshTokenIfNeeded 0 (.error "gateway down")
        (some ⟨"acc", "ref", "bearer", 7⟩)).token =
      some ⟨"acc", "ref", "bearer", 7⟩ ∧
    (RefreshTokenIfNeeded 0 (.error "gateway down")
        (some ⟨"acc", "ref", "bearer", 7⟩)).res =
      .error "failed to refresh token: gateway down" :=
  (refresh_atomicity 0 (some ⟨"acc", "ref", "bearer", 7⟩) "gateway down"
      ⟨"acc", "ref", "bearer", 7⟩).1 (by decide)

/-- C3 (counter-evidence): with an expired cached token whose refresh
succeeds, the request is handed to transport still carrying the stale bearer
credential, while the store already holds the new token — the source rewrites
the `Authorization` header only in the branch where `RefreshTokenIfNeeded`
returned an error. -/
theorem stale_bearer_after_successful_refresh :
    (doAuthPhase 2000 (.ok ⟨"new-access", "refresh-2", "bearer", 2000000000000000⟩)
        (some ⟨"old-access", "refresh-1", "bearer", 1000⟩)
        (newRequest DefaultBaseURL DefaultUserAgent
          (some ⟨"old-access", "refresh-1", "bearer", 1000⟩)
          "GET" "/products" none)).1 =
      some ⟨"new-access", "refresh-2", "bearer", 2000000000000000⟩ ∧
    (doAuthPhase 2000 (.ok ⟨"new-access", "refresh-2", "bearer", 2000000000000000⟩)
        (some ⟨"old-access", "refresh-1", "bearer", 1000⟩)
        (newRequest DefaultBaseURL DefaultUserAgent
          (some ⟨"old-access", "refresh-1", "bearer", 1000⟩)
          "GET" "/products" none)).2.authorization =
      some "Bearer old-access" ∧
    ("Bearer old-access" : String) ≠ "Bearer new-access" := by
  refine ⟨by decide, by decide, by decide⟩

/-- C2 (counter-evidence): a customer envelope carrying id 7 converts — via
`convertToCustomerEvent`, whose unmarshal targets `order` rather than
`customer` — into a typed event whose customer data is the zero value, not
the envelope's data; decoding the same payload as the declared `Customer`
target would have produced id 7. -/
theorem customer_event_conversion_loses_data :
    (convertToCustomerEvent
        ⟨"customer.created", 42,
         [("id", .num 7), ("first_name", .str "Ali"),
          ("email", .str "ali@example.com")],
         "2024-01-01T00:00:00Z"⟩).map
        (fun ce => (ce.data.id, ce.data.firstName, ce.data.email)) =
      some (0, "", "") ∧
    (decodeCustomer
        (Json.obj
          [("id", .num 7), ("first_name", .str "Ali"),
           ("email", .str "ali@example.com")])).map
        (fun c => (c.id, c.firstName, c.email)) =
      some (7, "Ali", "ali@example.com") := by
  exact ⟨rfl, rfl⟩

/-- C10: the pagination cursor accessors are total on a nil receiver
(`false`/`0`), and on a non-nil value `NextPage` is `CurrentPage + 1`
exactly when `CurrentPage < LastPage` (else 0) and `PreviousPage` is
`CurrentPage - 1` exactly when `CurrentPage > 1` (else 0). -/
theorem pagination_cursor_total (q : Pagination) :
    Pagination.HasNextPage none = false ∧
    Pagination.HasPreviousPage none = false ∧
    Pagination.NextPage none = 0 ∧
    Pagination.PreviousPage none = 0 ∧
    (Pagination.HasNextPage (some q) = true ↔ q.currentPage < q.lastPage) ∧
    (Pagination.HasPreviousPage (some q) = true ↔ 1 < q.currentPage) ∧
    Pagination.NextPage (some q) =
      (if q.currentPage < q.lastPage then q.currentPage + 1 else 0) ∧
    Pagination.PreviousPage (some q) =
      (if 1 < q.currentPage then q.currentPage - 1 else 0) := by
  refine ⟨rfl, rfl, rfl, rfl, by simp [Pagination.HasNextPage],
    by simp [Pagination.HasPreviousPage], ?_, ?_⟩
  · simp only [Pagination.NextPage, Pagination.HasNextPage]
    split_ifs <;> simp_all
  · simp only [Pagination.PreviousPage, Pagination.HasPreviousPage]
    split_ifs <;> simp_all

set_option maxRecDepth 100000 in
set_option maxHeartbeats 1000000 in
/-- C1 (counterexample): with the empty secret, `VerifyWebhookSignature`
still computes and compares the HMAC digest, so an arbitrary wrong signature
is rejected — contradicting "when the secret is the empty string it returns
true regardless of the signature supplied". -/
theorem verify_empty_secret_rejects_wrong_signature :
    VerifyWebhookSignature "" (strBytes "abc") "not-the-digest" = false := by
  decide

/-- C1 (amended): `VerifyWebhookSignature` accepts exactly the hex
HMAC-SHA256 digest for every secret, the empty secret included; the
accept-anything behaviour with an unset secret is implemented one level up,
in `ServeHTTP`, which skips signature verification entirely when the secret
is empty (its result does not depend on the signature headers). -/
theorem verify_signature_amended :
    (∀ (s : String) (b : List Nat),
      VerifyWebhookSignature s b
        (hexEncodeToString (hmacSha256 (strBytes s) b)) = true) ∧
    (∀ (s : String) (b : List Nat) (sig : String),
      sig ≠ hexEncodeToString (hmacSha256 (strBytes s) b) →
      VerifyWebhookSignature s b sig = false) ∧
    (∀ (h : WebhookHandlerFunc) (r : HttpRequest), h.secret = "" →
      h.ServeHTTP r = h.ServeHTTP ⟨r.method, "", "", r.body⟩) := by
  refine ⟨?_, ?_, ?_⟩
  · intro s b
    simp [VerifyWebhookSignature]
  · intro s b sig hne
    simp [VerifyWebhookSignature, hne]
  · intro h r hs
    simp [WebhookHandlerFunc.ServeHTTP, signatureAccepted, hs]

set_option maxRecDepth 100000 in
set_option maxHeartbeats 1000000 in
/-- Witness for `verify_signature_amended` at concrete inputs. -/
theorem verify_signature_amended_witness :
    VerifyWebhookSignature "k" (strBytes "m")
      (hexEncodeToString (hmacSha256 (strBytes "k") (strBytes "m"))) = true ∧
    VerifyWebhookSignature "k" (strBytes "m") "zz" = false ∧
    WebhookHandlerFunc.ServeHTTP ⟨"", []⟩ ⟨"POST", "sig-a", "auth-b", "5"⟩ =
      WebhookHandlerFunc.ServeHTTP ⟨"", []⟩ ⟨"POST", "", "", "5"⟩ :=
  ⟨verify_signature_amended.1 "k" (strBytes "m"),
   verify_signature_amended.2.1 "k" (strBytes "m") "zz" (by decide),
   verify_signature_amended.2.2 ⟨"", []⟩ ⟨"POST", "sig-a", "auth-b", "5"⟩ rfl⟩

/-- C8: a POST whose signature passes (or whose secret is unset) and whose
body parses into an envelope with no registered handler for its tag is
answered 200 with no handler invocation. -/
theorem dispatch_unregistered_tag_is_noop (h : WebhookHandlerFunc)
    (r : HttpRequest) (ev : WebhookEvent)
    (hm : r.method = "POST")
    (hsig : signatureAccepted h r = true)
    (hp : ParseWebhook r.body = some ev)
    (hh : lookupHandler h.handlers ev.event = none) :
    h.ServeHTTP r = ⟨200, false⟩ := by
  simp [WebhookHandlerFunc.ServeHTTP, hm, hp, hh, hsig]

/-- Witness for `dispatch_unregistered_tag_is_noop`: an empty registry,
empty secret, and a parseable order envelope. -/
theorem dispatch_unregistered_tag_is_noop_witness :
    WebhookHandlerFunc.ServeHTTP ⟨"", []⟩
      ⟨"POST", "", "",
       "\x7b\"event\":\"order.created\",\"merchant\":1,\"data\":\x7b\x7d,\"created_at\":\"2024-01-01T00:00:00Z\"\x7d"⟩ =
      ⟨200, false⟩ :=
  dispatch_unregistered_tag_is_noop ⟨"", []⟩
    ⟨"POST", "", "",
     "\x7b\"event\":\"order.created\",\"merchant\":1,\"data\":\x7b\x7d,\"created_at\":\"2024-01-01T00:00:00Z\"\x7d"⟩
    ⟨"order.created", 1, [], "2024-01-01T00:00:00Z"⟩
    rfl rfl rfl rfl

/-- C9: for a POST whose signature passes and whose body parses, a failing
registered handler yields status 500 (the error is captured at the dispatch
boundary), a succeeding handler yields 200, and a missing handler yields 200
without invocation. -/
theorem handler_error_maps_to_500 (h : WebhookHandlerFunc)
    (r : HttpRequest) (ev : WebhookEvent)
    (hm : r.method = "POST")
    (hsig : signatureAccepted h r = true)
    (hp : ParseWebhook r.body = some ev) :
    (∀ f e, lookupHandler h.handlers ev.event = some f → f ev = some e →
      h.ServeHTTP r = ⟨500, true⟩) ∧
    (∀ f, lookupHandler h.handlers ev.event = some f → f ev = none →
      h.ServeHTTP r = ⟨200, true⟩) ∧
    (lookupHandler h.handlers ev.event = none →
      h.ServeHTTP r = ⟨200, false⟩) := by
  refine ⟨?_, ?_, ?_⟩
  · intro f e hf hfe
    simp [WebhookHandlerFunc.ServeHTTP, hm, hp, hf, hfe, hsig]
  · intro f hf hfe
    simp [WebhookHandlerFunc.ServeHTTP, hm, hp, hf, hfe, hsig]
  · intro hh
    simp [WebhookHandlerFunc.ServeHTTP, hm, hp, hh, hsig]

/-- Witness for `handler_error_maps_to_500`: a handler registered for the
envelope's tag that fails maps to 500 with the handler invoked. -/
theorem handler_error_maps_to_500_witness :
    WebhookHandlerFunc.ServeHTTP
      ⟨"", [("order.created", fun _ => some "boom")]⟩
      ⟨"POST", "", "",
       "\x7b\"event\":\"order.created\",\"merchant\":1,\"data\":\x7b\x7d,\"created_at\":\"2024-01-01T00:00:00Z\"\x7d"⟩ =
      ⟨500, true⟩ :=
  (handler_error_maps_to_500
      ⟨"", [("order.created", fun _ => some "boom")]⟩
      ⟨"POST", "", "",
       "\x7b\"event\":\"order.created\",\"merchant\":1,\"data\":\x7b\x7d,\"created_at\":\"2024-01-01T00:00:00Z\"\x7d"⟩
      ⟨"order.created", 1, [], "2024-01-01T00:00:00Z"⟩
      rfl rfl rfl).1 (fun _ => some "boom") "boom" rfl rfl

/-- Unfolding lemma: the critical-section count across a cons. -/
theorem csCount_cons (pc : ThreadPC) (rest : Multiset ThreadPC) :
    csCount (pc ::ₘ rest) =
      csCount rest + (if pc = .locked ∨ pc = .staleSeen then 1 else 0) := by
  simp [csCount, Multiset.countP_cons]

/-- A `ready` thread is outside the critical section. -/
theorem csCount_cons_ready (rest : Multiset ThreadPC) :
    csCount (ThreadPC.ready ::ₘ rest) = csCount rest := by
  simp [csCount_cons]

/-- A `finished` thread is outside the critical section. -/
theorem csCount_cons_finished (rest : Multiset ThreadPC) :
    csCount (ThreadPC.finished ::ₘ rest) = csCount rest := by
  simp [csCount_cons]

/-- A `locked` thread is inside the critical section. -/
theorem csCount_cons_locked (rest : Multiset ThreadPC) :
    csCount (ThreadPC.locked ::ₘ rest) = csCount rest + 1 := by
  simp [csCount_cons]

/-- A `staleSeen` thread is inside the critical section. -/
theorem csCount_cons_staleSeen (rest : Multiset ThreadPC) :
    csCount (ThreadPC.staleSeen ::ₘ rest) = csCount rest + 1 := by
  simp [csCount_cons]

/-- The invariant holds in the initial state. -/
theorem refreshInv_init (t0 newTok : Token) (n : Nat) :
    refreshInv t0 newTok n (initState (some t0) n) := by
  have hcs : csCount (Multiset.replicate n ThreadPC.ready) = 0 := by
    rw [csCount, Multiset.countP_eq_zero]
    intro pc hpc
    have hpc' := Multiset.eq_of_mem_replicate hpc
    subst hpc'
    simp
  refine ⟨by simp [initState], fun _ => hcs, by simp [hcs, initState],
    by simp [initState], ?_, ?_⟩
  · intro _
    refine ⟨rfl, ?_⟩
    simp [initState, Multiset.mem_replicate]
  · intro h
    simp [initState] at h

/-- Each interleaving step preserves the invariant, given an initially
stale but refreshable token and a fresh refresh outcome. -/
theorem refreshInv_step {now : Int} {t0 newTok : Token} {n : Nat}
    (hstale : tokenFresh now (some t0) = false)
    (hrt : t0.refreshToken ≠ "")
    (hfresh : tokenFresh now (some newTok) = true)
    {s s' : SysState} (hstep : RefreshStep now newTok s s')
    (hinv : refreshInv t0 newTok n s) : refreshInv t0 newTok n s' := by
  obtain ⟨hcard, hfree, hcs, hcnt, h0, h1⟩ := hinv
  cases hstep with
  | acquire tok count rest =>
    have hr : csCount rest = 0 := by
      have h := hfree rfl
      rwa [csCount_cons_ready] at h
    refine ⟨?_, ?_, ?_, hcnt, ?_, ?_⟩
    · simpa [Multiset.card_cons] using hcard
    · intro h
      simp at h
    · show csCount (ThreadPC.locked ::ₘ rest) ≤ 1
      rw [csCount_cons_locked, hr]
    · intro hc
      obtain ⟨ht, hfin⟩ := h0 hc
      refine ⟨ht, ?_⟩
      simp only [Multiset.mem_cons] at hfin ⊢
      rintro (h' | h')
      · cases h'
      · exact hfin (Or.inr h')
    · intro hc
      obtain ⟨ht, hss⟩ := h1 hc
      refine ⟨ht, ?_⟩
      simp only [Multiset.mem_cons] at hss ⊢
      rintro (h' | h')
      · cases h'
      · exact hss (Or.inr h')
  | checkFresh tok count rest hf =>
    have hr : csCount rest = 0 := by
      have h : csCount (ThreadPC.locked ::ₘ rest) ≤ 1 := hcs
      rw [csCount_cons_locked] at h
      omega
    have hc1 : count = 1 := by
      rcases Nat.le_one_iff_eq_zero_or_eq_one.mp hcnt with h | h
      · obtain ⟨ht, -⟩ := h0 h
        rw [show tok = some t0 from ht] at hf
        rw [hf] at hstale
        cases hstale
      · exact h
    refine ⟨?_, ?_, ?_, hcnt, ?_, ?_⟩
    · simpa [Multiset.card_cons] using hcard
    · intro _
      show csCount (ThreadPC.finished ::ₘ rest) = 0
      rw [csCount_cons_finished, hr]
    · show csCount (ThreadPC.finished ::ₘ rest) ≤ 1
      rw [csCount_cons_finished, hr]
      omega
    · intro hc
      have hcx : count = 0 := hc
      omega
    · intro _
      obtain ⟨ht, hss⟩ := h1 hc1
      refine ⟨ht, ?_⟩
      simp only [Multiset.mem_cons] at hss ⊢
      rintro (h' | h')
      · cases h'
      · exact hss (Or.inr h')
  | checkNoRefreshToken tok count rest hf hnort =>
    exfalso
    rcases Nat.le_one_iff_eq_zero_or_eq_one.mp hcnt with h | h
    · obtain ⟨ht, -⟩ := h0 h
      rw [show tok = some t0 from ht] at hnort
      rcases hnort with h' | ⟨t, ht', hrt'⟩
      · cases h'
      · cases ht'
        exact hrt hrt'
    · obtain ⟨ht, -⟩ := h1 h
      rw [show tok = some newTok from ht] at hf
      rw [hf] at hfresh
      cases hfresh
  | checkStale t count rest hf hrt' =>
    have hc0 : count = 0 := by
      rcases Nat.le_one_iff_eq_zero_or_eq_one.mp hcnt with h | h
      · exact h
      · obtain ⟨ht, -⟩ := h1 h
        have ht' : t = newTok := by injection ht
        rw [ht'] at hf
        rw [hf] at hfresh
        cases hfresh
    refine ⟨?_, ?_, ?_, hcnt, ?_, ?_⟩
    · simpa [Multiset.card_cons] using hcard
    · intro h
      simp at h
    · show csCount (ThreadPC.staleSeen ::ₘ rest) ≤ 1
      rw [csCount_cons_staleSeen]
      have h : csCount (ThreadPC.locked ::ₘ rest) ≤ 1 := hcs
      rw [csCount_cons_locked] at h
      omega
    · intro _
      obtain ⟨ht, hfin⟩ := h0 hc0
      refine ⟨ht, ?_⟩
      simp only [Multiset.mem_cons] at hfin ⊢
      rintro (h' | h')
      · cases h'
      · exact hfin (Or.inr h')
    · intro hc
      have hcx : count = 1 := hc
      omega
  | refresh tok count rest =>
    have hc0 : count = 0 := by
      rcases Nat.le_one_iff_eq_zero_or_eq_one.mp hcnt with h | h
      · exact h
      · obtain ⟨-, hss⟩ := h1 h
        exact absurd (Multiset.mem_cons_self _ _) hss
    have hr : csCount rest = 0 := by
      have h : csCount (ThreadPC.staleSeen ::ₘ rest) ≤ 1 := hcs
      rw [csCount_cons_staleSeen] at h
      omega
    refine ⟨?_, ?_, ?_, by show count + 1 ≤ 1; omega, ?_, ?_⟩
    · simpa [Multiset.card_cons] using hcard
    · intro _
      show csCount (ThreadPC.finished ::ₘ rest) = 0
      rw [csCount_cons_finished, hr]
    · show csCount (ThreadPC.finished ::ₘ rest) ≤ 1
      rw [csCount_cons_finished, hr]
      omega
    · intro hc
      have hcx : count + 1 = 0 := hc
      omega
    · intro _
      refine ⟨rfl, ?_⟩
      show ThreadPC.staleSeen ∉ ThreadPC.finished ::ₘ rest
      simp only [Multiset.mem_cons]
      rintro (h' | h')
      · cases h'
      · have hpos : 0 < csCount rest :=
          Multiset.countP_pos.mpr ⟨ThreadPC.staleSeen, h', Or.inr rfl⟩
        omega

/-- The invariant holds in every reachable state. -/
theorem refreshInv_reach {now : Int} {t0 newTok : Token} {n : Nat}
    (hstale : tokenFresh now (some t0) = false)
    (hrt : t0.refreshToken ≠ "")
    (hfresh : tokenFresh now (some newTok) = true)
    {s : SysState}
    (hreach : Relation.ReflTransGen (RefreshStep now newTok)
      (initState (some t0) n) s) :
    refreshInv t0 newTok n s := by
  induction hreach with
  | refl => exact refreshInv_init t0 newTok n
  | tail _ hbc ih => exact refreshInv_step hstale hrt hfresh hbc ih

/-- C7: with `n` concurrent callers of `RefreshTokenIfNeeded`, an initially
present but stale token carrying a refresh token, and a refresh outcome
that is fresh, every reachable state of the interleaving system holds the
whole old token or the whole new one (no partial update), and once every
caller has returned (with at least one caller) exactly one refresh call was
issued system-wide and the stored token is the new one. -/
theorem ensure_valid_single_flight (now : Int) (t0 newTok : Token) (n : Nat)
    (hstale : tokenFresh now (some t0) = false)
    (hrt : t0.refreshToken ≠ "")
    (hfresh : tokenFresh now (some newTok) = true)
    (s : SysState)
    (hreach : Relation.ReflTransGen (RefreshStep now newTok)
      (initState (some t0) n) s) :
    (s.tok = some t0 ∨ s.tok = some newTok) ∧
    ((∀ pc ∈ s.pcs, pc = ThreadPC.finished) → 0 < n →
      s.count = 1 ∧ s.tok = some newTok) := by
  obtain ⟨hcard, -, -, hcnt, h0, h1⟩ := refreshInv_reach hstale hrt hfresh hreach
  constructor
  · rcases Nat.le_one_iff_eq_zero_or_eq_one.mp hcnt with h | h
    · exact Or.inl (h0 h).1
    · exact Or.inr (h1 h).1
  · intro hdone hn
    have hne : s.count ≠ 0 := by
      intro hc
      obtain ⟨-, hfin⟩ := h0 hc
      obtain ⟨pc, hpc⟩ := Multiset.card_pos_iff_exists_mem.mp
        (by rw [hcard]; exact hn)
      exact hfin (hdone pc hpc ▸ hpc)
    have hone : s.count = 1 := by omega
    exact ⟨hone, (h1 hone).1⟩

/-- Witness for `ensure_valid_single_flight`: one caller, a concrete stale
token, and the explicit three-step trace acquire → check → refresh. -/
theorem ensure_valid_single_flight_witness :
    SysState.count ⟨false, some ⟨"new", "rt2", "bearer", 1000000000000000⟩, 1,
        {ThreadPC.finished}⟩ = 1 ∧
    SysState.tok ⟨false, some ⟨"new", "rt2", "bearer", 1000000000000000⟩, 1,
        {ThreadPC.finished}⟩ = some ⟨"new", "rt2", "bearer", 1000000000000000⟩ := by
  have trace : Relation.ReflTransGen
      (RefreshStep 0 ⟨"new", "rt2", "bearer", 1000000000000000⟩)
      (initState (some ⟨"old", "rt", "bearer", 5⟩) 1)
      ⟨false, some ⟨"new", "rt2", "bearer", 1000000000000000⟩, 1,
        {ThreadPC.finished}⟩ := by
    have s1 : RefreshStep 0 ⟨"new", "rt2", "bearer", 1000000000000000⟩
        (initState (some ⟨"old", "rt", "bearer", 5⟩) 1)
        ⟨true, some ⟨"old", "rt", "bearer", 5⟩, 0, {ThreadPC.locked}⟩ :=
      RefreshStep.acquire _ _ 0
    have s2 : RefreshStep 0 ⟨"new", "rt2", "bearer", 1000000000000000⟩
        ⟨true, some ⟨"old", "rt", "bearer", 5⟩, 0, {ThreadPC.locked}⟩
        ⟨true, some ⟨"old", "rt", "bearer", 5⟩, 0, {ThreadPC.staleSeen}⟩ :=
      RefreshStep.checkStale _ _ 0 (by decide) (by decide)
    have s3 : RefreshStep 0 ⟨"new", "rt2", "bearer", 1000000000000000⟩
        ⟨true, some ⟨"old", "rt", "bearer", 5⟩, 0, {ThreadPC.staleSeen}⟩
        ⟨false, some ⟨"new", "rt2", "bearer", 1000000000000000⟩, 1,
          {ThreadPC.finished}⟩ :=
      RefreshStep.refresh _ _ 0
    exact .tail (.tail (.tail .refl s1) s2) s3
  exact (ensure_valid_single_flight 0 ⟨"old", "rt", "bearer", 5⟩
      ⟨"new", "rt2", "bearer", 1000000000000000⟩ 1 (by decide) (by decide)
      (by decide) _ trace).2 (by decide) (by decide)

end GoSalla
